import Mathlib

/-!
Shallow embedding of the GPy excerpt consisting of the exponential
(Ornstein-Uhlenbeck) kernel part (GPy/kern/exponential.py) and the GPLVM
model (GPy/models/GPLVM.py).  Floating-point numpy arithmetic is modelled
over the real numbers; numpy arrays are modelled as functions from index
types; the in-place accumulate-into-target mutation of numpy is modelled by
returning the updated target.  The numpy idiom
1.0 / np.where(dist != 0, dist, np.inf), whose IEEE value is 0 where
dist = 0 (since 1/inf = 0), is modelled by the exact zero branch.
Python assert failures are modelled as Option.none results.
-/

/-- State of the exponential kernel part: input dimensionality D, the ARD
flag, the variance parameter and the lengthscale parameter vector
(length 1 when not ARD, length D when ARD). -/
structure exponential where
  D : ℕ
  ARD : Bool
  variance : ℝ
  lengthscale : List ℝ

namespace exponential

/-- Number of parameters: 2 when not ARD, D + 1 when ARD. -/
def Nparam (k : exponential) : ℕ := if k.ARD = true then k.D + 1 else 2

/-- Broadcast lengthscale per dimension: numpy broadcasting of a shape (1,)
array uses the single entry for every dimension; a shape (D,) array is
indexed elementwise. -/
noncomputable def ell (k : exponential) (d : ℕ) : ℝ :=
  if k.ARD = true then k.lengthscale.getD d 0 else k.lengthscale.getD 0 0

/-- Constructor of the kernel part.  The Python code asserts
lengthscale.shape == (1,) for non-ARD and (D,) for ARD when a lengthscale is
supplied, and defaults to a vector of ones otherwise; a failed assert is
modelled as none. -/
def init (D : ℕ) (variance : ℝ) (lengthscale : Option (List ℝ)) (ARD : Bool) :
    Option exponential :=
  if ARD then
    match lengthscale with
    | some l => if l.length = D then some ⟨D, true, variance, l⟩ else none
    | none => some ⟨D, true, variance, List.replicate D 1⟩
  else
    match lengthscale with
    | some l => if l.length = 1 then some ⟨D, false, variance, l⟩ else none
    | none => some ⟨D, false, variance, [1]⟩

/-- Model of exponential._get_params: np.hstack((variance, lengthscale)). -/
def get_params (k : exponential) : List ℝ := k.variance :: k.lengthscale

/-- Model of exponential._set_params: asserts x.size == Nparam, then sets
variance = x[0] and lengthscale = x[1:].  The failed assert is none. -/
def set_params (k : exponential) (x : List ℝ) : Option exponential :=
  if x.length = k.Nparam then
    some { k with variance := x.headD 0, lengthscale := x.tail }
  else none

/-- Scaled Euclidean distance between two input rows:
sqrt of the sum over the D dimensions of ((x_d - y_d) / ell_d)^2, as in the
dist arrays of K, dK_dtheta and dK_dX. -/
noncomputable def dist (k : exponential) (x y : ℕ → ℝ) : ℝ :=
  Real.sqrt (∑ d ∈ Finset.range k.D, ((x d - y d) / k.ell d) ^ 2)

/-- Model of exponential.K with X2 present (the X2-is-None branch of the
source sets X2 := X, hence is K k X X target): adds
variance * exp(-dist) elementwise into target. -/
noncomputable def K (k : exponential) {N M : ℕ} (X : Fin N → ℕ → ℝ)
    (X2 : Fin M → ℕ → ℝ) (target : Fin N → Fin M → ℝ) : Fin N → Fin M → ℝ :=
  fun i j => k.variance * Real.exp (-(k.dist (X i) (X2 j))) + target i j

/-- Model of exponential.Kdiag: np.add(target, variance, target), i.e. adds
the variance to every entry of target; X is not inspected. -/
noncomputable def Kdiag (k : exponential) {N : ℕ} (X : Fin N → ℕ → ℝ)
    (target : Fin N → ℝ) : Fin N → ℝ :=
  fun i => target i + k.variance

/-- Model of invdist = 1.0 / np.where(dist != 0, dist, np.inf): the IEEE
quotient 1/inf is 0, so the value is 1/dist where dist is nonzero and
exactly 0 where dist = 0. -/
noncomputable def invdist (k : exponential) (x y : ℕ → ℝ) : ℝ :=
  if k.dist x y ≠ 0 then 1 / k.dist x y else 0

/-- Model of dist2M = np.square(X - X2) / lengthscale ** 3, per dimension. -/
noncomputable def dist2M (k : exponential) (x y : ℕ → ℝ) (d : ℕ) : ℝ :=
  (x d - y d) ^ 2 / k.ell d ^ 3

/-- Per-pair lengthscale derivative dl in the non-ARD branch of dK_dtheta:
variance * exp(-dist) * dist2M.sum(-1) * invdist. -/
noncomputable def dl_iso (k : exponential) (x y : ℕ → ℝ) : ℝ :=
  k.variance * Real.exp (-(k.dist x y)) *
    (∑ d ∈ Finset.range k.D, k.dist2M x y d) * k.invdist x y

/-- Per-pair, per-dimension lengthscale derivative dl in the ARD branch of
dK_dtheta: variance * exp(-dist) * dist2M * invdist. -/
noncomputable def dl_ard (k : exponential) (x y : ℕ → ℝ) (d : ℕ) : ℝ :=
  k.variance * Real.exp (-(k.dist x y)) * k.dist2M x y d * k.invdist x y

/-- Model of exponential.dK_dtheta with X2 present (the X2-is-None branch
sets X2 := X).  Entry 0 of target accumulates sum(exp(-dist) * part);
the lengthscale entries (entry 1 when not ARD, entries 1..D when ARD)
accumulate the dl contributions weighted by part; all other entries are
untouched. -/
noncomputable def dK_dtheta (k : exponential) {N M : ℕ}
    (part : Fin N → Fin M → ℝ) (X : Fin N → ℕ → ℝ) (X2 : Fin M → ℕ → ℝ)
    (target : ℕ → ℝ) : ℕ → ℝ :=
  fun t =>
    if t = 0 then
      target 0 + ∑ i, ∑ j, Real.exp (-(k.dist (X i) (X2 j))) * part i j
    else if k.ARD = true then
      if 1 ≤ t ∧ t ≤ k.D then
        target t + ∑ i, ∑ j, k.dl_ard (X i) (X2 j) (t - 1) * part i j
      else target t
    else
      if t = 1 then
        target 1 + ∑ i, ∑ j, k.dl_iso (X i) (X2 j) * part i j
      else target t

/-- Model of exponential.dKdiag_dtheta: target[0] += sum(part); the
lengthscale entries are not written. -/
noncomputable def dKdiag_dtheta {N : ℕ} (part : Fin N → ℝ)
    (X : Fin N → ℕ → ℝ) (target : ℕ → ℝ) : ℕ → ℝ :=
  Function.update target 0 (target 0 + ∑ i, part i)

/-- Model of ddist_dX = (X - X2) / lengthscale**2 / np.where(dist != 0,
dist, np.inf): dividing by np.inf yields 0, modelled by the invdist
factor which is 0 exactly when dist = 0. -/
noncomputable def ddist_dX (k : exponential) (x y : ℕ → ℝ) (d : ℕ) : ℝ :=
  (x d - y d) / k.ell d ^ 2 * k.invdist x y

/-- Per-pair contribution of exponential.dK_dX before weighting by part:
the (b, a) entry of -transpose(variance * exp(-dist) * ddist_dX, (1,0,2))
at row index b of X and column index a of X2. -/
noncomputable def dKdX_pair (k : exponential) (x y : ℕ → ℝ) (d : ℕ) : ℝ :=
  -(k.variance * Real.exp (-(k.dist x y)) * k.ddist_dX x y d)

/-- Model of exponential.dK_dX with X2 present (the X2-is-None branch sets
X2 := X): target[b, d] += sum over a of dKdX_pair (X b) (X2 a) d *
part[b, a], which is the (b, d) entry of
(dK_dX * partial.T[:,:,None]).sum(0) in the source. -/
noncomputable def dK_dX (k : exponential) {N M : ℕ}
    (part : Fin N → Fin M → ℝ) (X : Fin N → ℕ → ℝ) (X2 : Fin M → ℕ → ℝ)
    (target : Fin N → ℕ → ℝ) : Fin N → ℕ → ℝ :=
  fun b d => target b d + ∑ a, k.dKdX_pair (X b) (X2 a) d * part b a

/-- Model of exponential.dKdiag_dX: the body is pass, so the target is
returned unchanged. -/
def dKdiag_dX {N : ℕ} (X : Fin N → ℕ → ℝ) (target : Fin N → ℕ → ℝ) :
    Fin N → ℕ → ℝ := target

/-- Scalar lengthscale used by Gram_matrix (D = 1: the shape (1,) array
acts as the scalar lengthscale[0]). -/
noncomputable def ell0 (k : exponential) : ℝ := k.lengthscale.getD 0 0

/-- Model of the operator L inside Gram_matrix:
L(x, i) = 1/lengthscale * F[i](x) + F1[i](x). -/
noncomputable def L (k : exponential) {n : ℕ} (F F1 : Fin n → ℝ → ℝ)
    (i : Fin n) (x : ℝ) : ℝ :=
  1 / k.ell0 * F i x + F1 i x

/-- Model of the G array filled by the double loop of Gram_matrix: for
j >= i both G[i,j] and G[j,i] are set to quad(L(., i) * L(., j), lower,
upper), where quad models scipy.integrate.quad as a deterministic function
of the integrand and the bounds. -/
noncomputable def GramG (k : exponential) (quad : (ℝ → ℝ) → ℝ → ℝ → ℝ)
    {n : ℕ} (F F1 : Fin n → ℝ → ℝ) (lower upper : ℝ) :
    Fin n → Fin n → ℝ :=
  fun i j =>
    if i ≤ j then quad (fun x => k.L F F1 i x * k.L F F1 j x) lower upper
    else quad (fun x => k.L F F1 j x * k.L F F1 i x) lower upper

/-- The value returned by Gram_matrix when its assert succeeds:
lengthscale / 2 / variance * G + 1 / variance * Flower @ Flower.T, with
Flower[i] = F[i](lower). -/
noncomputable def GramFull (k : exponential) (quad : (ℝ → ℝ) → ℝ → ℝ → ℝ)
    {n : ℕ} (F F1 : Fin n → ℝ → ℝ) (lower upper : ℝ) :
    Fin n → Fin n → ℝ :=
  fun i j =>
    k.ell0 / 2 / k.variance * k.GramG quad F F1 lower upper i j +
      1 / k.variance * (F i lower * F j lower)

/-- Model of exponential.Gram_matrix: asserts D == 1 (none on failure),
then returns GramFull. -/
noncomputable def Gram_matrix (k : exponential) (quad : (ℝ → ℝ) → ℝ → ℝ → ℝ)
    {n : ℕ} (F F1 : Fin n → ℝ → ℝ) (lower upper : ℝ) :
    Option (Fin n → Fin n → ℝ) :=
  if k.D = 1 then some (k.GramFull quad F F1 lower upper) else none

end exponential

/-- Row-major flattening of an N x Q matrix, as numpy ndarray.flatten():
entry n * Q + q of the result is M[n, q]. -/
def flattenM {α : Type} {N Q : ℕ} (M : Fin N → Fin Q → α) : List α :=
  List.ofFn fun p : Fin (N * Q) =>
    M ⟨(p : ℕ) / Q, by
        have hp := p.2
        have hQ : 0 < Q := by
          rcases Nat.eq_zero_or_pos Q with h | h
          · subst h; omega
          · exact h
        have hp2 : (p : ℕ) < Q * N :=
          Nat.lt_of_lt_of_le hp (Nat.le_of_eq (Nat.mul_comm N Q))
        exact Nat.div_lt_of_lt_mul hp2⟩
      ⟨(p : ℕ) % Q, by
        have hp := p.2
        have hQ : 0 < Q := by
          rcases Nat.eq_zero_or_pos Q with h | h
          · subst h; omega
          · exact h
        exact Nat.mod_lt _ hQ⟩

/-- State of a GPLVM as seen by the methods of GPy/models/GPLVM.py that the
claims are about: the latent matrix X (N observations, Q latent
dimensions), together with the values supplied by its collaborators, which
are outside this excerpt and treated as deterministic black boxes:
kernParams models kern._get_params_transformed(), kernParamNames models
kern._get_param_names_transformed(), dLdK models self.dL_dK(), and
kern_dK_dtheta and kern_dK_dX model the composite-kernel gradient methods
kern.dK_dtheta and kern.dK_dX (which return their result rather than
accumulating into a target). -/
structure GPLVM (N Q : ℕ) where
  X : Fin N → Fin Q → ℝ
  kernParams : List ℝ
  kernParamNames : List String
  dLdK : Fin N → Fin N → ℝ
  kern_dK_dtheta : (Fin N → Fin N → ℝ) → (Fin N → Fin Q → ℝ) → List ℝ
  kern_dK_dX : (Fin N → Fin N → ℝ) → (Fin N → Fin Q → ℝ) → Fin N → Fin Q → ℝ

/-- The latent parameter name string for observation n and latent dimension
q, from the format X_%i_%i of GPLVM._get_param_names. -/
def latentName (n q : ℕ) : String := "X_" ++ toString n ++ "_" ++ toString q

/-- The latent block of GPLVM._get_param_names:
sum([[X_n_q for n in range(N)] for q in range(Q)], []) concatenates the
blocks dimension-major (outer loop over q). -/
def latentParamNames (N Q : ℕ) : List String :=
  (List.range Q).flatMap fun q => (List.range N).map fun n => latentName n q

namespace GPLVM

/-- Model of GPLVM._get_param_names: latent names followed by the kernel
parameter names. -/
def get_param_names {N Q : ℕ} (s : GPLVM N Q) : List String :=
  latentParamNames N Q ++ s.kernParamNames

/-- Model of GPLVM._get_params:
np.hstack((X.flatten(), kern._get_params_transformed())). -/
noncomputable def get_params {N Q : ℕ} (s : GPLVM N Q) : List ℝ :=
  flattenM s.X ++ s.kernParams

/-- Model of GPLVM._log_likelihood_gradients: with dL_dK from the base
model, dL_dtheta = kern.dK_dtheta(dL_dK, X), dL_dX = 2 *
kern.dK_dX(dL_dK, X), result np.hstack((dL_dX.flatten(), dL_dtheta)). -/
noncomputable def log_likelihood_gradients {N Q : ℕ} (s : GPLVM N Q) :
    List ℝ :=
  flattenM (fun n q => 2 * s.kern_dK_dX s.dLdK s.X n q) ++
    s.kern_dK_dtheta s.dLdK s.X

end GPLVM

/-! Helper lemmas. -/

/-- The scaled distance of a row to itself is zero. -/
theorem exponential.dist_self (k : exponential) (x : ℕ → ℝ) : k.dist x x = 0 := by
  simp [exponential.dist]

/-- The scaled distance is symmetric in its two rows. -/
theorem exponential.dist_comm (k : exponential) (x y : ℕ → ℝ) :
    k.dist x y = k.dist y x := by
  unfold exponential.dist
  congr 1
  apply Finset.sum_congr rfl
  intro d _
  ring

/-- Square root of nine. -/
theorem sqrt_nine : Real.sqrt 9 = 3 := by
  rw [show (9 : ℝ) = 3 ^ 2 by norm_num, Real.sqrt_sq (by norm_num : (0:ℝ) ≤ 3)]

/-- Square root of four. -/
theorem sqrt_four : Real.sqrt 4 = 2 := by
  rw [show (4 : ℝ) = 2 ^ 2 by norm_num, Real.sqrt_sq (by norm_num : (0:ℝ) ≤ 2)]

/-- Row-major flattening of an N x Q matrix has length N * Q. -/
theorem flattenM_length {α : Type} {N Q : ℕ} (M : Fin N → Fin Q → α) :
    (flattenM M).length = N * Q := by
  simp [flattenM]

/-- Entry n * Q + q of the row-major flattening is M n q. -/
theorem flattenM_getElem {α : Type} {N Q : ℕ} (M : Fin N → Fin Q → α)
    (n : Fin N) (q : Fin Q) :
    (flattenM M)[(n : ℕ) * Q + (q : ℕ)]? = some (M n q) := by
  have hq := q.2
  have hn := n.2
  have hQ : 0 < Q := Nat.pos_of_ne_zero (by omega)
  have hlt : (n : ℕ) * Q + (q : ℕ) < N * Q := by
    calc (n : ℕ) * Q + (q : ℕ) < ((n : ℕ) + 1) * Q := by
          rw [Nat.add_mul, Nat.one_mul]; omega
    _ ≤ N * Q := Nat.mul_le_mul_right Q hn
  have hdiv : ((n : ℕ) * Q + (q : ℕ)) / Q = (n : ℕ) := by
    rw [Nat.mul_comm, Nat.mul_add_div hQ, Nat.div_eq_of_lt hq, Nat.add_zero]
  have hmod : ((n : ℕ) * Q + (q : ℕ)) % Q = (q : ℕ) := by
    rw [Nat.mul_comm, Nat.mul_add_mod, Nat.mod_eq_of_lt hq]
  rw [flattenM, List.getElem?_ofFn, List.ofFnNthVal, dif_pos hlt]
  congr 1
  congr 1 <;> [exact Fin.ext hdiv; exact Fin.ext hmod]

/-- Index bound for row-major flattening. -/
theorem fin_flat_index_lt {N Q : ℕ} (n : Fin N) (q : Fin Q) :
    (n : ℕ) * Q + (q : ℕ) < N * Q := by
  have hq := q.2
  have hn := n.2
  calc (n : ℕ) * Q + (q : ℕ) < ((n : ℕ) + 1) * Q := by
        rw [Nat.add_mul, Nat.one_mul]; omega
  _ ≤ N * Q := Nat.mul_le_mul_right Q hn

/-- Length of the latent block of parameter names: Q blocks of N names. -/
theorem latentParamNames_length (N Q : ℕ) :
    (latentParamNames N Q).length = Q * N := by
  induction Q with
  | zero => simp [latentParamNames]
  | succ m ih =>
    rw [latentParamNames, List.range_succ, List.flatMap_append] at *
    simp only [List.flatMap_cons, List.flatMap_nil, List.length_append] at *
    rw [ih]
    simp [Nat.succ_mul]

/-! Claim theorems. -/

/-- C1: for the exponential kernel with D = 1, variance = 1, lengthscale =
1, ARD = False, calling K on X = [[0],[1],[3]] with X2 absent and a
zero-initialized 3 x 3 target yields the matrix
[[1, e^-1, e^-3], [e^-1, 1, e^-2], [e^-3, e^-2, 1]] (exactly, in the real
model, hence within any positive tolerance). -/
theorem C1_K_concrete (i j : Fin 3) :
    exponential.K ⟨1, false, 1, [1]⟩ (fun a _ => (![0, 1, 3] : Fin 3 → ℝ) a)
        (fun a _ => (![0, 1, 3] : Fin 3 → ℝ) a) (fun _ _ => 0) i j =
      ![![1, Real.exp (-1), Real.exp (-3)],
        ![Real.exp (-1), 1, Real.exp (-2)],
        ![Real.exp (-3), Real.exp (-2), 1]] i j := by
  fin_cases i <;> fin_cases j <;>
    norm_num [exponential.K, exponential.dist, exponential.ell,
      Finset.sum_range_one, Real.sqrt_sq_eq_abs, sqrt_nine, sqrt_four]

/-- C3: with X2 absent, K applied to a symmetric target produces a
symmetric matrix. -/
theorem C3_K_symmetric (k : exponential) {N : ℕ} (X : Fin N → ℕ → ℝ)
    (target : Fin N → Fin N → ℝ) (hsym : ∀ i j, target i j = target j i)
    (i j : Fin N) :
    exponential.K k X X target i j = exponential.K k X X target j i := by
  unfold exponential.K
  rw [exponential.dist_comm, hsym]

/-- Witness for C3 at a concrete kernel, input and zero target. -/
theorem C3_K_symmetric_witness :
    exponential.K ⟨1, false, 1, [1]⟩ (fun a _ => (![0, 2] : Fin 2 → ℝ) a)
        (fun a _ => (![0, 2] : Fin 2 → ℝ) a) (fun _ _ => 0) 0 1 =
      exponential.K ⟨1, false, 1, [1]⟩ (fun a _ => (![0, 2] : Fin 2 → ℝ) a)
        (fun a _ => (![0, 2] : Fin 2 → ℝ) a) (fun _ _ => 0) 1 0 :=
  C3_K_symmetric ⟨1, false, 1, [1]⟩ (fun a _ => (![0, 2] : Fin 2 → ℝ) a)
    (fun _ _ => 0) (fun _ _ => rfl) 0 1

/-- C4: with a zero-initialized target vector, every entry of Kdiag equals
the variance, and with a zero-initialized target matrix the diagonal of K
with X2 absent agrees with Kdiag. -/
theorem C4_Kdiag_variance (k : exponential) {N : ℕ} (X : Fin N → ℕ → ℝ)
    (i : Fin N) :
    exponential.Kdiag k X (fun _ => 0) i = k.variance ∧
      exponential.K k X X (fun _ _ => 0) i i =
        exponential.Kdiag k X (fun _ => 0) i := by
  constructor
  · simp [exponential.Kdiag]
  · simp [exponential.K, exponential.Kdiag, exponential.dist_self]

/-- C5: set_params followed by get_params is the identity on any parameter
vector of the correct length Nparam, and Nparam is unchanged, so the
round trip may be repeated arbitrarily often. -/
theorem C5_params_roundtrip (k : exponential) (v : List ℝ)
    (h : v.length = k.Nparam) :
    ∃ k2, exponential.set_params k v = some k2 ∧
      exponential.get_params k2 = v ∧ k2.Nparam = k.Nparam := by
  refine ⟨{ k with variance := v.headD 0, lengthscale := v.tail }, ?_, ?_, rfl⟩
  · rw [exponential.set_params, if_pos h]
  · rw [exponential.get_params]
    cases v with
    | nil =>
      exfalso
      rw [exponential.Nparam] at h
      rcases hA : k.ARD <;> rw [hA] at h <;> simp at h
    | cons a t => simp

/-- Witness for C5 at a concrete kernel and parameter vector. -/
theorem C5_params_roundtrip_witness :
    ∃ k2, exponential.set_params ⟨1, false, 1, [1]⟩ [5, 7] = some k2 ∧
      exponential.get_params k2 = [5, 7] ∧
      k2.Nparam = exponential.Nparam ⟨1, false, 1, [1]⟩ :=
  C5_params_roundtrip ⟨1, false, 1, [1]⟩ [5, 7] (by rfl)

/-- C8: dKdiag_dtheta adds exactly the sum of partial into target[0] and
leaves every other entry of target unchanged, and dKdiag_dX returns its
target unchanged. -/
theorem C8_dKdiag_frame {N : ℕ} (part : Fin N → ℝ) (X : Fin N → ℕ → ℝ)
    (target : ℕ → ℝ) (target2 : Fin N → ℕ → ℝ) :
    exponential.dKdiag_dtheta part X target 0 = target 0 + ∑ i, part i ∧
      (∀ t, t ≠ 0 → exponential.dKdiag_dtheta part X target t = target t) ∧
      exponential.dKdiag_dX X target2 = target2 := by
  refine ⟨?_, ?_, rfl⟩
  · simp [exponential.dKdiag_dtheta]
  · intro t ht
    simp [exponential.dKdiag_dtheta, Function.update_noteq ht]

/-- Witness for C8 at concrete inputs, with untouched entry 5. -/
theorem C8_dKdiag_frame_witness :
    exponential.dKdiag_dtheta (fun _ : Fin 1 => (1 : ℝ)) (fun _ _ => 0)
        (fun _ => 0) 0 = (fun _ : ℕ => (0 : ℝ)) 0 + ∑ i : Fin 1, (1 : ℝ) ∧
      exponential.dKdiag_dtheta (fun _ : Fin 1 => (1 : ℝ)) (fun _ _ => 0)
        (fun _ => 0) 5 = (fun _ : ℕ => (0 : ℝ)) 5 ∧
      exponential.dKdiag_dX (fun (_ : Fin 1) (_ : ℕ) => (0 : ℝ))
        (fun _ _ => 0) = fun _ _ => 0 :=
  ⟨(C8_dKdiag_frame (fun _ : Fin 1 => (1 : ℝ)) (fun _ _ => 0) (fun _ => 0)
      (fun _ _ => 0)).1,
   (C8_dKdiag_frame (fun _ : Fin 1 => (1 : ℝ)) (fun _ _ => 0) (fun _ => 0)
      (fun _ _ => 0)).2.1 5 (by decide),
   (C8_dKdiag_frame (fun _ : Fin 1 => (1 : ℝ)) (fun _ _ => 0) (fun _ => 0)
      (fun _ _ => 0)).2.2⟩

/-- C9: a supplied lengthscale of the wrong shape makes the constructor
fail, a parameter vector of the wrong length makes set_params fail, and
Gram_matrix fails whenever D is not 1; each failure is the fatal assert,
modelled as the none result. -/
theorem C9_asserts_fail :
    (∀ (D : ℕ) (v : ℝ) (l : List ℝ), l.length ≠ 1 →
        exponential.init D v (some l) false = none) ∧
      (∀ (D : ℕ) (v : ℝ) (l : List ℝ), l.length ≠ D →
        exponential.init D v (some l) true = none) ∧
      (∀ (k : exponential) (x : List ℝ), x.length ≠ k.Nparam →
        exponential.set_params k x = none) ∧
      (∀ (k : exponential) (quad : (ℝ → ℝ) → ℝ → ℝ → ℝ) (n : ℕ)
        (F F1 : Fin n → ℝ → ℝ) (lower upper : ℝ), k.D ≠ 1 →
        exponential.Gram_matrix k quad F F1 lower upper = none) := by
  refine ⟨?_, ?_, ?_, ?_⟩ <;> intros <;>
    simp_all [exponential.init, exponential.set_params,
      exponential.Gram_matrix]

/-- Witness for C9 at concrete mismatched shapes. -/
theorem C9_asserts_fail_witness :
    exponential.init 1 1 (some [1, 1]) false = none ∧
      exponential.init 3 1 (some [1]) true = none ∧
      exponential.set_params ⟨1, false, 1, [1]⟩ [] = none ∧
      exponential.Gram_matrix ⟨2, false, 1, [1]⟩ (fun _ _ _ => 0)
        (fun (_ : Fin 1) (_ : ℝ) => 1) (fun _ _ => 0) 0 1 = none :=
  ⟨C9_asserts_fail.1 1 1 [1, 1] (by decide),
   C9_asserts_fail.2.1 3 1 [1] (by decide),
   C9_asserts_fail.2.2.1 ⟨1, false, 1, [1]⟩ [] (by decide),
   C9_asserts_fail.2.2.2 ⟨2, false, 1, [1]⟩ (fun _ _ _ => 0) 1
     (fun _ _ => 1) (fun _ _ => 0) 0 1 (by decide)⟩

/-- C2: when two rows of X are identical, the per-pair lengthscale
contributions of dK_dtheta (dl_iso in the non-ARD branch, dl_ard in the
ARD branch) and the per-pair contribution of dK_dX, each weighted by the
upstream partial, are exactly 0 for that pair: the reciprocal of the zero
distance is masked to 0. -/
theorem C2_zero_distance_masking (k : exponential) {N : ℕ}
    (X : Fin N → ℕ → ℝ) (i j : Fin N) (part : Fin N → Fin N → ℝ)
    (h : X i = X j) :
    k.dl_iso (X i) (X j) * part i j = 0 ∧
      (∀ d, k.dl_ard (X i) (X j) d * part i j = 0) ∧
      (∀ d, k.dKdX_pair (X i) (X j) d * part i j = 0) := by
  rw [h]
  have hinv : k.invdist (X j) (X j) = 0 := by
    simp [exponential.invdist, exponential.dist_self]
  refine ⟨?_, fun d => ?_, fun d => ?_⟩ <;>
    simp [exponential.dl_iso, exponential.dl_ard, exponential.dKdX_pair,
      exponential.ddist_dX, hinv]

/-- Witness for C2 at a concrete kernel and a pair of identical rows. -/
theorem C2_zero_distance_masking_witness :
    exponential.dl_iso ⟨1, false, 1, [1]⟩ (fun _ => 0) (fun _ => 0) * 1 = 0 ∧
      exponential.dl_ard ⟨1, false, 1, [1]⟩ (fun _ => 0) (fun _ => 0) 0 * 1
        = 0 ∧
      exponential.dKdX_pair ⟨1, false, 1, [1]⟩ (fun _ => 0) (fun _ => 0) 0 * 1
        = 0 :=
  ⟨(C2_zero_distance_masking ⟨1, false, 1, [1]⟩ (fun (_ : Fin 2) _ => (0:ℝ))
      0 1 (fun _ _ => 1) rfl).1,
   (C2_zero_distance_masking ⟨1, false, 1, [1]⟩ (fun (_ : Fin 2) _ => (0:ℝ))
      0 1 (fun _ _ => 1) rfl).2.1 0,
   (C2_zero_distance_masking ⟨1, false, 1, [1]⟩ (fun (_ : Fin 2) _ => (0:ℝ))
      0 1 (fun _ _ => 1) rfl).2.2 0⟩

/-- C6: the GPLVM log-likelihood gradient vector is the row-major
flattening of 2 times the kernel dK_dX result on dL/dK, followed by the
kernel dK_dtheta result on the same dL/dK; its entry n * Q + q is the
latent gradient for X[n, q] and its entry N * Q + j is entry j of the
hyperparameter gradient, matching the parameter layout of get_params,
which is the flattened X followed by the kernel parameters. -/
theorem C6_gplvm_gradients {N Q : ℕ} (s : GPLVM N Q) (n : Fin N) (q : Fin Q)
    (jj : ℕ) :
    GPLVM.log_likelihood_gradients s =
        flattenM (fun a b => 2 * s.kern_dK_dX s.dLdK s.X a b) ++
          s.kern_dK_dtheta s.dLdK s.X ∧
      (GPLVM.log_likelihood_gradients s)[(n : ℕ) * Q + (q : ℕ)]? =
        some (2 * s.kern_dK_dX s.dLdK s.X n q) ∧
      (GPLVM.log_likelihood_gradients s)[N * Q + jj]? =
        (s.kern_dK_dtheta s.dLdK s.X)[jj]? ∧
      GPLVM.get_params s = flattenM s.X ++ s.kernParams := by
  refine ⟨rfl, ?_, ?_, rfl⟩
  · rw [GPLVM.log_likelihood_gradients,
      List.getElem?_append_left
        (by rw [flattenM_length]; exact fin_flat_index_lt n q)]
    exact flattenM_getElem _ n q
  · rw [GPLVM.log_likelihood_gradients,
      List.getElem?_append_right
        (by rw [flattenM_length]; exact Nat.le_add_right _ _),
      flattenM_length, Nat.add_sub_cancel_left]

/-- C7: the latent parameter names of GPLVM are ordered dimension-major
while the latent parameter values are the row-major flattening of X, so
with N > 1 and Q > 1 the name at index 1 is X_1_0 (referring to X[1, 0])
while the value at index 1 is X[0, 1]: names and values are misaligned at
index 1. -/
theorem C7_names_values_misaligned {N Q : ℕ} (hN : 1 < N) (hQ : 1 < Q)
    (s : GPLVM N Q) :
    (GPLVM.get_param_names s)[1]? = some (latentName 1 0) ∧
      (GPLVM.get_params s)[1]? = some (s.X ⟨0, by omega⟩ ⟨1, hQ⟩) ∧
      latentName 1 0 ≠ latentName 0 1 := by
  refine ⟨?_, ?_, by decide⟩
  · rw [GPLVM.get_param_names,
      List.getElem?_append_left
        (by rw [latentParamNames_length]
            have h4 : 2 * 2 ≤ Q * N := Nat.mul_le_mul hQ hN
            omega)]
    obtain ⟨m, hm⟩ : ∃ m, Q = m + 1 := ⟨Q - 1, by omega⟩
    subst hm
    rw [latentParamNames, List.range_succ_eq_map, List.flatMap_cons,
      List.getElem?_append_left (by simpa using hN),
      List.getElem?_map, List.getElem?_range hN]
    rfl
  · rw [GPLVM.get_params,
      List.getElem?_append_left
        (by rw [flattenM_length]
            have h4 : 2 * 2 ≤ N * Q := Nat.mul_le_mul hN hQ
            omega)]
    have := flattenM_getElem s.X ⟨0, by omega⟩ ⟨1, hQ⟩
    simpa using this

/-- Witness for C7 at N = Q = 2 and a concrete GPLVM state. -/
theorem C7_names_values_misaligned_witness :
    (GPLVM.get_param_names
        (⟨fun _ _ => 0, [], [], fun _ _ => 0, fun _ _ => [],
          fun _ _ _ _ => 0⟩ : GPLVM 2 2))[1]? = some (latentName 1 0) ∧
      (GPLVM.get_params
        (⟨fun _ _ => 0, [], [], fun _ _ => 0, fun _ _ => [],
          fun _ _ _ _ => 0⟩ : GPLVM 2 2))[1]? =
        some ((⟨fun _ _ => 0, [], [], fun _ _ => 0, fun _ _ => [],
          fun _ _ _ _ => 0⟩ : GPLVM 2 2).X ⟨0, by omega⟩ ⟨1, by omega⟩) ∧
      latentName 1 0 ≠ latentName 0 1 :=
  C7_names_values_misaligned (by omega) (by omega)
    ⟨fun _ _ => 0, [], [], fun _ _ => 0, fun _ _ => [], fun _ _ _ _ => 0⟩

/-- C10: when D = 1, Gram_matrix returns (rather than failing) the matrix
GramFull, which is symmetric and whose (i, j) entry is the affine
combination lengthscale / (2 variance) times the quadrature of
L(., i) * L(., j) over [lower, upper], plus 1 / variance times
F i (lower) * F j (lower). -/
theorem C10_gram_matrix (k : exponential) (quad : (ℝ → ℝ) → ℝ → ℝ → ℝ)
    {n : ℕ} (F F1 : Fin n → ℝ → ℝ) (lower upper : ℝ) (hD : k.D = 1) :
    exponential.Gram_matrix k quad F F1 lower upper =
        some (k.GramFull quad F F1 lower upper) ∧
      (∀ i j, k.GramFull quad F F1 lower upper i j =
        k.GramFull quad F F1 lower upper j i) ∧
      (∀ i j, k.GramFull quad F F1 lower upper i j =
        k.ell0 / (2 * k.variance) *
            quad (fun x => k.L F F1 i x * k.L F F1 j x) lower upper +
          1 / k.variance * (F i lower * F j lower)) := by
  refine ⟨by rw [exponential.Gram_matrix, if_pos hD], ?_, ?_⟩
  · intro i j
    unfold exponential.GramFull exponential.GramG
    by_cases hij : i ≤ j <;> by_cases hji : j ≤ i
    · obtain rfl : i = j := le_antisymm hij hji
      rfl
    · rw [if_pos hij, if_neg hji]; ring
    · rw [if_neg hij, if_pos hji]; ring
    · exact absurd (le_total i j) (by simp [hij, hji])
  · intro i j
    unfold exponential.GramFull exponential.GramG
    by_cases hij : i ≤ j
    · rw [if_pos hij, div_div]
    · rw [if_neg hij, div_div]
      have hcomm : (fun x => k.L F F1 j x * k.L F F1 i x) =
          fun x => k.L F F1 i x * k.L F F1 j x := by
        funext x; ring
      rw [hcomm]

/-- Witness for C10 at a concrete kernel with D = 1, a two-element constant
basis and an abstract zero quadrature. -/
theorem C10_gram_matrix_witness :
    exponential.Gram_matrix ⟨1, false, 1, [1]⟩ (fun _ _ _ => 0)
        (fun (_ : Fin 2) (_ : ℝ) => 1) (fun _ _ => 0) 0 1 =
        some (exponential.GramFull ⟨1, false, 1, [1]⟩ (fun _ _ _ => 0)
          (fun _ _ => 1) (fun _ _ => 0) 0 1) ∧
      exponential.GramFull ⟨1, false, 1, [1]⟩ (fun _ _ _ => 0)
          (fun (_ : Fin 2) (_ : ℝ) => 1) (fun _ _ => 0) 0 1 0 1 =
        exponential.GramFull ⟨1, false, 1, [1]⟩ (fun _ _ _ => 0)
          (fun (_ : Fin 2) (_ : ℝ) => 1) (fun _ _ => 0) 0 1 1 0 ∧
      exponential.GramFull ⟨1, false, 1, [1]⟩ (fun _ _ _ => 0)
          (fun (_ : Fin 2) (_ : ℝ) => 1) (fun _ _ => 0) 0 1 0 1 =
        exponential.ell0 ⟨1, false, 1, [1]⟩ /
            (2 * exponential.variance ⟨1, false, 1, [1]⟩) * 0 +
          1 / exponential.variance ⟨1, false, 1, [1]⟩ * (1 * 1) :=
  ⟨(C10_gram_matrix ⟨1, false, 1, [1]⟩ (fun _ _ _ => 0)
      (fun (_ : Fin 2) (_ : ℝ) => 1) (fun _ _ => 0) 0 1 rfl).1,
   (C10_gram_matrix ⟨1, false, 1, [1]⟩ (fun _ _ _ => 0)
      (fun (_ : Fin 2) (_ : ℝ) => 1) (fun _ _ => 0) 0 1 rfl).2.1 0 1,
   (C10_gram_matrix ⟨1, false, 1, [1]⟩ (fun _ _ _ => 0)
      (fun (_ : Fin 2) (_ : ℝ) => 1) (fun _ _ => 0) 0 1 rfl).2.2 0 1⟩
